import Mathlib

/-!
Verification of the activity aggregation and notification-eligibility core
of the bychok browser extension (src/service/activity.ts and the upsert
helpers of src/shared/storage.ts).

Modelling conventions:
* JavaScript numbers that hold exact quantities (minutes, durations,
  thresholds) are modelled as rationals `ℚ`; epoch-millisecond timestamps
  and streak lengths are integers `Int`.
* `Math.round x` is modelled as `⌊x + 1/2⌋` (nearest, ties toward +∞,
  per ECMA-262 on exact values).
* `Date` arithmetic is modelled on the proleptic Gregorian calendar.
  `Date.prototype.toISOString` is modelled per ECMA-262, including the
  expanded (six-digit, signed) year format for years outside 0000–9999 and
  the `RangeError` (modelled as `Option.none`) for time values beyond
  ±8.64e15 ms.
* Date-only strings (`YYYY-MM-DD`) parse as UTC midnight; the executing
  environment's local clock, used by `shouldWarnStreakExpiry` through
  `new Date(lastDate + 'T00:00:00')` and by `evaluateQuietHours` through
  `Date.prototype.getHours`, is modelled by an explicit fixed offset in
  minutes east of UTC (`envOffsetMinutes`), respectively by passing the
  environment-local hour directly.
-/

namespace Bychok

/-- `Session` record from src/shared/types.js, as used by activity.ts. -/
structure Session where
  id : String
  siteId : String
  date : String
  activeMinutes : ℚ
deriving DecidableEq, Repr

/-- `Streak` record from src/shared/types.js; `frozenDaysLeft` is optional
(`none` models an absent field). -/
structure Streak where
  siteId : String
  length : Int
  lastDate : String
  frozenDaysLeft : Option Int := none
deriving DecidableEq, Repr

/-- `Settings` record from src/shared/types.js (fields as used across the
repository; UI-only fields kept for faithfulness). -/
structure Settings where
  tz : String
  quietHours : List (Int × Int)
  notifications : Bool
  audioEnabled : Bool
  focusEntrySound : Option String
  sessionLengthMinutes : ℚ
  focusPresets : List ℚ
  savedSites : List String
  overlayTransparency : ℚ
deriving DecidableEq, Repr

/-- `ActivitySlot` input record from src/shared/types.js. -/
structure ActivitySlot where
  siteId : String
  url : String
  durationSec : ℚ
  timestamp : Int
deriving DecidableEq, Repr

/-- `AggregatedData` from src/service/activity.ts. -/
structure AggregatedData where
  sessions : List Session
  streaks : List Streak
deriving DecidableEq, Repr

/-! ### Time-zone offset parsing (`parseTzOffsetMinutes`) -/

/-- Numeric value of an ASCII digit character. -/
def digitVal (c : Char) : Nat := c.toNat - '0'.toNat

/-- One attempt of the regex `/([+-])(\d{2}):(\d{2})/` at the head of the
character list: a sign, two digits, a colon, two digits (the pattern is
fixed-width, so the regex engine's attempt at a position either succeeds
on the next six characters or fails). Returns the signed minute count
`sign * (HH * 60 + MM)` on success. -/
def matchTzAt : List Char → Option Int
  | sg :: h1 :: h0 :: c :: m1 :: m0 :: _ =>
    if (sg = '+' ∨ sg = '-') ∧ h1.isDigit ∧ h0.isDigit ∧ c = ':' ∧ m1.isDigit ∧ m0.isDigit then
      let v : Int := ((digitVal h1 * 10 + digitVal h0) * 60 + (digitVal m1 * 10 + digitVal m0) : Nat)
      some (if sg = '-' then -v else v)
    else none
  | _ => none

/-- The regex engine scans start positions left to right and returns the
first match (`String.prototype.match` without the global flag). -/
def findTzOffset : List Char → Option Int
  | [] => none
  | c :: rest =>
    match matchTzAt (c :: rest) with
    | some v => some v
    | none => findTzOffset rest

/-- `parseTzOffsetMinutes` from src/service/activity.ts: first match of
`/([+-])(\d{2}):(\d{2})/` anywhere in the string, else 0. -/
def parseTzOffsetMinutes (tz : String) : Int :=
  (findTzOffset tz.data).getD 0

/-! ### Calendar arithmetic (proleptic Gregorian, as used by ECMA-262) -/

/-- Civil date `(year, month, day)` of a day count relative to 1970-01-01. -/
def civilFromDays (z : Int) : Int × Int × Int :=
  let z' := z + 719468
  let era := Int.fdiv z' 146097
  let doe := z' - era * 146097
  let yoe := Int.fdiv (doe - Int.fdiv doe 1460 + Int.fdiv doe 36524 - Int.fdiv doe 146096) 365
  let y := yoe + era * 400
  let doy := doe - (365 * yoe + Int.fdiv yoe 4 - Int.fdiv yoe 100)
  let mp := Int.fdiv (5 * doy + 2) 153
  let d := doy - Int.fdiv (153 * mp + 2) 5 + 1
  let m := if mp < 10 then mp + 3 else mp - 9
  (if m ≤ 2 then y + 1 else y, m, d)

/-- Day count relative to 1970-01-01 of a civil `(year, month, day)`. -/
def daysFromCivil (y m d : Int) : Int :=
  let y' := if m ≤ 2 then y - 1 else y
  let era := Int.fdiv y' 400
  let yoe := y' - era * 400
  let mp := if 2 < m then m - 3 else m + 9
  let doy := Int.fdiv (153 * mp + 2) 5 + d - 1
  let doe := yoe * 365 + Int.fdiv yoe 4 - Int.fdiv yoe 100 + doy
  era * 146097 + doe - 719468

/-- Fixed-width zero-padded decimal rendering (`w` digits). -/
def digitsPad (w n : Nat) : List Char :=
  ((List.range w).reverse).map (fun i => Nat.digitChar (n / 10 ^ i % 10))

/-- Date part of `Date.prototype.toISOString` (ECMA-262): `YYYY-MM-DD` for
years 0000–9999, expanded signed six-digit years otherwise. -/
def isoDateChars (ms : Int) : List Char :=
  let c := civilFromDays (Int.fdiv ms 86400000)
  (if 0 ≤ c.1 ∧ c.1 ≤ 9999 then digitsPad 4 c.1.toNat
   else (if c.1 < 0 then '-' else '+') :: digitsPad 6 c.1.natAbs)
  ++ '-' :: digitsPad 2 c.2.1.toNat ++ '-' :: digitsPad 2 c.2.2.toNat

/-- Time part of `Date.prototype.toISOString`: `THH:MM:SS.mmmZ`. -/
def isoTimeChars (ms : Int) : List Char :=
  let r := Int.fmod ms 86400000
  'T' :: digitsPad 2 (Int.fdiv r 3600000).toNat
  ++ ':' :: digitsPad 2 (Int.fdiv (Int.fmod r 3600000) 60000).toNat
  ++ ':' :: digitsPad 2 (Int.fdiv (Int.fmod r 60000) 1000).toNat
  ++ '.' :: digitsPad 3 (Int.fmod r 1000).toNat
  ++ ['Z']

/-- `Date.prototype.toISOString` on an epoch-ms time value; `none` models
the `RangeError` thrown on an invalid `Date` (|value| > 8.64e15 ms). -/
def toISOStringOpt (ms : Int) : Option String :=
  if ms.natAbs ≤ 8640000000000000 then some (String.mk (isoDateChars ms ++ isoTimeChars ms))
  else none

/-- `toDateKey` from src/service/activity.ts:
`new Date(timestamp + offsetMinutes * 60 * 1000).toISOString().slice(0, 10)`. -/
def toDateKey (timestamp : Int) (tz : String) : Option String :=
  (toISOStringOpt (timestamp + parseTzOffsetMinutes tz * 60000)).map
    (fun s => String.mk (s.data.take 10))

/-! ### Rounding (`Math.round`) -/

/-- Floor of a rational (the denominator is positive, so this is the
mathematical floor). -/
def ratFloor (q : ℚ) : Int := Int.fdiv q.num q.den

/-- `Math.round` per ECMA-262 on exact values: nearest integer, ties
toward +∞, i.e. `⌊q + 1/2⌋`. -/
def jsRound (q : ℚ) : Int := ratFloor (q + 1/2)

/-- `roundMinutes` from src/service/activity.ts:
`Math.round(value * 100) / 100`. -/
def roundMinutes (value : ℚ) : ℚ := ((jsRound (value * 100) : Int) : ℚ) / 100

/-! ### Date-key parsing (`new Date("YYYY-MM-DD")`) -/

/-- ECMA-262 parsing of a date-only string in the `YYYY-MM-DD` profile of
the Date Time String Format: UTC-midnight epoch milliseconds. The grammar
bounds the month to 01–12 and the day to 01–31; a day beyond the month's
length overflows into the next month (`MakeDay`). Strings outside this
profile yield an invalid `Date` (`none`). -/
def parseDateKeyMs (s : String) : Option Int :=
  match s.data with
  | [y3, y2, y1, y0, s1, m1, m0, s2, d1, d0] =>
    if y3.isDigit ∧ y2.isDigit ∧ y1.isDigit ∧ y0.isDigit ∧ s1 = '-' ∧
       m1.isDigit ∧ m0.isDigit ∧ s2 = '-' ∧ d1.isDigit ∧ d0.isDigit then
      let y : Int := (((digitVal y3 * 10 + digitVal y2) * 10 + digitVal y1) * 10 + digitVal y0 : Nat)
      let m : Int := ((digitVal m1 * 10 + digitVal m0 : Nat) : Int)
      let d : Int := ((digitVal d1 * 10 + digitVal d0 : Nat) : Int)
      if 1 ≤ m ∧ m ≤ 12 ∧ 1 ≤ d ∧ d ≤ 31 then
        some (86400000 * (daysFromCivil y m 1 + (d - 1)))
      else none
    else none
  | _ => none

/-- `Math.round((currentDate.getTime() - lastDate.getTime()) / (1000*60*60*24))`
in `ensureStreakProgress`; `none` models the `NaN` produced when either
date string is invalid. -/
def dateDiffDays (last today : String) : Option Int :=
  match parseDateKeyMs last, parseDateKeyMs today with
  | some a, some b => some (jsRound (((b - a : Int) : ℚ) / 86400000))
  | _, _ => none

/-! ### Upsert helpers (src/shared/storage.ts) -/

/-- `upsertSession` from src/shared/storage.ts: replace the session at the
first index whose `id` matches (preserving its position), else append. -/
def upsertSession : List Session → Session → List Session
  | [], s => [s]
  | x :: xs, s => if x.id = s.id then s :: xs else x :: upsertSession xs s

/-- `upsertStreak` from src/shared/storage.ts: replace the streak at the
first index whose `siteId` matches (preserving its position), else append. -/
def upsertStreak : List Streak → Streak → List Streak
  | [], st => [st]
  | x :: xs, st => if x.siteId = st.siteId then st :: xs else x :: upsertStreak xs st

/-! ### Core functions (src/service/activity.ts) -/

/-- `ensureStreakProgress` from src/service/activity.ts. -/
def ensureStreakProgress (session : Session) (streaks : List Streak) (settings : Settings) :
    List Streak :=
  let existing := streaks.find? (fun item => decide (item.siteId = session.siteId))
  let requiredMinutes := max settings.sessionLengthMinutes 1
  if session.activeMinutes < requiredMinutes then streaks
  else
    let today := session.date
    match existing with
    | none => upsertStreak streaks ⟨session.siteId, 1, today, none⟩
    | some ex =>
      if ex.lastDate = today then streaks
      else if dateDiffDays ex.lastDate today = some 1 then
        upsertStreak streaks { ex with length := ex.length + 1, lastDate := today }
      else
        upsertStreak streaks ⟨session.siteId, 1, today, none⟩

/-- `mergeActivitySlot` from src/service/activity.ts; `none` propagates the
`RangeError` of `toISOString` on an out-of-range shifted timestamp. -/
def mergeActivitySlot (slot : ActivitySlot) (data : AggregatedData) (settings : Settings) :
    Option AggregatedData :=
  (toDateKey slot.timestamp settings.tz).map fun dateKey =>
    let sessionId := slot.siteId ++ ":" ++ dateKey
    let minutesDelta := slot.durationSec / 60
    let nextSession : Session :=
      match data.sessions.find? (fun s => decide (s.id = sessionId)) with
      | some existing =>
        { existing with activeMinutes := roundMinutes (existing.activeMinutes + minutesDelta) }
      | none => ⟨sessionId, slot.siteId, dateKey, roundMinutes minutesDelta⟩
    ⟨upsertSession data.sessions nextSession,
     ensureStreakProgress nextSession data.streaks settings⟩

/-- Result record of `evaluateQuietHours`. -/
structure QuietHoursResult where
  withinQuietHours : Bool
  range : Option (Int × Int)
deriving DecidableEq, Repr

/-- The range loop of `evaluateQuietHours`: skip empty ranges, match
`start ≤ hour < end` for forward ranges, `hour ≥ start ∨ hour < end` for
midnight-wrapping ranges; first match wins. -/
def evalQuietRanges : List (Int × Int) → Int → QuietHoursResult
  | [], _ => ⟨false, none⟩
  | (s, e) :: rest, h =>
    if s = e then evalQuietRanges rest h
    else if s < e then
      (if s ≤ h ∧ h < e then ⟨true, some (s, e)⟩ else evalQuietRanges rest h)
    else
      (if s ≤ h ∨ h < e then ⟨true, some (s, e)⟩ else evalQuietRanges rest h)

/-- `evaluateQuietHours` from src/service/activity.ts. The `Date` argument
enters only through `date.getHours()`; the function is parameterised
directly by that environment-local hour. -/
def evaluateQuietHours (settings : Settings) (localHour : Int) : QuietHoursResult :=
  if settings.quietHours = [] then ⟨false, none⟩
  else evalQuietRanges settings.quietHours localHour

/-- UTC instant of the environment-local midnight of a date key:
`new Date(dateKey + 'T00:00:00')` (a date-time form without offset is
interpreted in local time), with the environment's clock modelled as a
fixed offset of `envOffsetMinutes` minutes east of UTC. -/
def localMidnightMs (dateKey : String) (envOffsetMinutes : Int) : Option Int :=
  (parseDateKeyMs dateKey).map (fun ms => ms - envOffsetMinutes * 60000)

/-- `shouldWarnStreakExpiry` from src/service/activity.ts; `nowMs` is
`now.getTime()`. An invalid `lastDate` makes `diffHours` `NaN`, whose
comparisons are false. -/
def shouldWarnStreakExpiry (streak : Streak) (nowMs : Int) (settings : Settings)
    (envOffsetMinutes : Int) : Bool :=
  if streak.length = 0 then false
  else
    match localMidnightMs streak.lastDate envOffsetMinutes with
    | none => false
    | some m =>
      let diffHours : ℚ := ((nowMs - m : Int) : ℚ) / 3600000
      decide (21 ≤ diffHours) && decide (diffHours < 48) && settings.notifications

/-! ### Spec-side definitions (for stating the claims) -/

/-- Spec-side `YYYY-MM-DD` rendering of the UTC calendar date of an epoch-ms
instant (§4.1 of the spec): zero-padded four-digit year (plain decimal
digits beyond year 9999), two-digit month and day. -/
def specDateKeyOfMs (ms : Int) : String :=
  let c := civilFromDays (Int.fdiv ms 86400000)
  String.mk ((if c.1 < 10000 then digitsPad 4 c.1.toNat else Nat.toDigits 10 c.1.toNat)
    ++ '-' :: digitsPad 2 c.2.1.toNat ++ '-' :: digitsPad 2 c.2.2.toNat)

/-- Spec-side description of when one quiet-hours range matches a local
hour (§4.2 of the spec): empty ranges never match, forward ranges match
`start ≤ hour < end`, wrapping ranges match `hour ≥ start ∨ hour < end`. -/
def matchesQuietRange (r : Int × Int) (h : Int) : Bool :=
  if r.1 = r.2 then false
  else if r.1 < r.2 then decide (r.1 ≤ h) && decide (h < r.2)
  else decide (r.1 ≤ h) || decide (h < r.2)

/-- Streak-collection invariant (§3 of the spec): at most one streak per
`siteId`, and every streak has `length ≥ 1`. -/
def StreakInvariant (streaks : List Streak) : Prop :=
  (streaks.map (fun st => st.siteId)).Nodup ∧ ∀ st ∈ streaks, 1 ≤ st.length

instance : DecidablePred StreakInvariant := fun _ =>
  inferInstanceAs (Decidable (_ ∧ _))

/-! ### Concrete fixtures (from the repository's own tests) -/

/-- The `SETTINGS` fixture of the activity test suite. -/
def settings0 : Settings :=
  { tz := "+00:00"
    quietHours := [(22, 7)]
    notifications := true
    audioEnabled := true
    focusEntrySound := some "chime-soft"
    sessionLengthMinutes := 5
    focusPresets := [5, 15, 25, 45]
    savedSites := []
    overlayTransparency := 4/5 }

/-- `settings0` with notifications disabled. -/
def settingsNoNotif : Settings := { settings0 with notifications := false }

/-! ### Helper lemmas -/

lemma digitVal_digitChar {k : Nat} (hk : k < 10) : digitVal (Nat.digitChar k) = k := by
  interval_cases k <;> rfl

lemma isDigit_digitChar {k : Nat} (hk : k < 10) : (Nat.digitChar k).isDigit = true := by
  interval_cases k <;> rfl

lemma matchTzAt_nil : matchTzAt [] = none := rfl

lemma findTzOffset_of_first {l : List Char} {i : Nat} {v : Int}
    (hm : matchTzAt (l.drop i) = some v)
    (hnone : ∀ j, j < i → matchTzAt (l.drop j) = none) :
    findTzOffset l = some v := by
  induction l generalizing i with
  | nil =>
    rw [List.drop_nil] at hm
    exact absurd hm (by simp [matchTzAt])
  | cons c rest ih =>
    cases i with
    | zero =>
      rw [List.drop_zero] at hm
      rw [findTzOffset, hm]
    | succ i' =>
      have h0 : matchTzAt (c :: rest) = none := by
        have := hnone 0 (Nat.succ_pos i')
        rwa [List.drop_zero] at this
      rw [findTzOffset, h0]
      exact ih (by rwa [List.drop_succ_cons] at hm)
        (fun j hj => by
          have := hnone (j + 1) (by omega)
          rwa [List.drop_succ_cons] at this)

lemma findTzOffset_of_no_match {l : List Char}
    (h : ∀ j, matchTzAt (l.drop j) = none) :
    findTzOffset l = none := by
  induction l with
  | nil => rfl
  | cons c rest ih =>
    have h0 : matchTzAt (c :: rest) = none := by
      have := h 0
      rwa [List.drop_zero] at this
    rw [findTzOffset, h0]
    exact ih (fun j => by
      have := h (j + 1)
      rwa [List.drop_succ_cons] at this)

lemma digitsPad_length (w n : Nat) : (digitsPad w n).length = w := by
  simp [digitsPad]

lemma mem_upsertStreak {l : List Streak} {st y : Streak}
    (h : y ∈ upsertStreak l st) : y = st ∨ y ∈ l := by
  induction l with
  | nil =>
    rw [upsertStreak] at h
    simpa using h
  | cons x xs ih =>
    rw [upsertStreak] at h
    by_cases hx : x.siteId = st.siteId
    · rw [if_pos hx] at h
      rcases List.mem_cons.mp h with h | h
      · exact Or.inl h
      · exact Or.inr (List.mem_cons_of_mem _ h)
    · rw [if_neg hx] at h
      rcases List.mem_cons.mp h with h | h
      · exact Or.inr (h ▸ List.mem_cons_self _ _)
      · rcases ih h with h | h
        · exact Or.inl h
        · exact Or.inr (List.mem_cons_of_mem _ h)

lemma self_mem_upsertStreak (l : List Streak) (st : Streak) : st ∈ upsertStreak l st := by
  induction l with
  | nil => rw [upsertStreak]; exact List.mem_singleton.mpr rfl
  | cons x xs ih =>
    rw [upsertStreak]
    by_cases hx : x.siteId = st.siteId
    · rw [if_pos hx]; exact List.mem_cons_self _ _
    · rw [if_neg hx]; exact List.mem_cons_of_mem _ ih

lemma nodup_upsertStreak {l : List Streak} (st : Streak)
    (h : (l.map (fun x => x.siteId)).Nodup) :
    ((upsertStreak l st).map (fun x => x.siteId)).Nodup := by
  induction l with
  | nil => simp [upsertStreak]
  | cons x xs ih =>
    rw [List.map_cons, List.nodup_cons] at h
    rw [upsertStreak]
    by_cases hx : x.siteId = st.siteId
    · rw [if_pos hx, List.map_cons, List.nodup_cons]
      exact ⟨hx ▸ h.1, h.2⟩
    · rw [if_neg hx, List.map_cons, List.nodup_cons]
      refine ⟨fun hmem => ?_, ih h.2⟩
      rcases List.mem_map.mp hmem with ⟨y, hy, hya⟩
      rcases mem_upsertStreak hy with rfl | hy'
      · exact hx hya.symm
      · exact h.1 (hya ▸ List.mem_map_of_mem _ hy')

lemma find?_upsertStreak (l : List Streak) (st : Streak) :
    (upsertStreak l st).find? (fun x => decide (x.siteId = st.siteId)) = some st := by
  induction l with
  | nil => simp [upsertStreak, List.find?]
  | cons x xs ih =>
    rw [upsertStreak]
    by_cases hx : x.siteId = st.siteId
    · rw [if_pos hx]
      simp [List.find?]
    · rw [if_neg hx]
      rw [List.find?_cons_of_neg _ (by simpa using hx)]
      exact ih

lemma find?_eq_of_nodup_mem {l : List Streak} {st : Streak}
    (hn : (l.map (fun x => x.siteId)).Nodup) (hm : st ∈ l) :
    l.find? (fun x => decide (x.siteId = st.siteId)) = some st := by
  induction l with
  | nil => exact absurd hm (List.not_mem_nil st)
  | cons x xs ih =>
    rw [List.map_cons, List.nodup_cons] at hn
    rcases List.mem_cons.mp hm with rfl | hm'
    · simp [List.find?]
    · have hx : x.siteId ≠ st.siteId := by
        intro hcontra
        exact hn.1 (hcontra ▸ List.mem_map_of_mem _ hm')
      rw [List.find?_cons_of_neg _ (by simpa using hx)]
      exact ih hn.2 hm'

lemma upsertSession_of_find?_none {l : List Session} {s : Session}
    (h : l.find? (fun x => decide (x.id = s.id)) = none) :
    upsertSession l s = l ++ [s] := by
  induction l with
  | nil => rfl
  | cons x xs ih =>
    rw [List.find?_cons] at h
    rw [upsertSession]
    by_cases hx : x.id = s.id
    · simp [hx] at h
    · rw [if_neg hx, ih (by simpa [hx] using h)]
      rfl

lemma upsertSession_eq_set (l : List Session) (s : Session) {i : Nat} {ex : Session}
    (hi : l[i]? = some ex) (hex : ex.id = s.id)
    (hbefore : ∀ j, j < i → ∀ y, l[j]? = some y → y.id ≠ s.id) :
    upsertSession l s = l.set i s := by
  induction l generalizing i with
  | nil => simp at hi
  | cons x xs ih =>
    cases i with
    | zero =>
      rw [List.getElem?_cons_zero, Option.some_inj] at hi
      rw [upsertSession, if_pos (by rw [hi]; exact hex), List.set_cons_zero]
    | succ i' =>
      rw [List.getElem?_cons_succ] at hi
      have hx : x.id ≠ s.id := hbefore 0 (Nat.succ_pos i') x (List.getElem?_cons_zero)
      rw [upsertSession, if_neg hx, List.set_cons_succ]
      rw [ih hi (fun j hj y hy => hbefore (j + 1) (by omega) y (by rwa [List.getElem?_cons_succ]))]

lemma filter_upsertSession {l : List Session} {s : Session} {sid : String}
    (hs : s.id = sid)
    (h : (l.filter (fun x => decide (x.id = sid))).length ≤ 1) :
    (upsertSession l s).filter (fun x => decide (x.id = sid)) = [s] := by
  induction l with
  | nil => simp [upsertSession, List.filter, hs]
  | cons x xs ih =>
    rw [upsertSession]
    by_cases hx : x.id = s.id
    · rw [if_pos hx]
      have hxs : xs.filter (fun x => decide (x.id = sid)) = [] := by
        rw [List.filter_cons_of_pos (by simp [hx, hs])] at h
        have : (xs.filter (fun x => decide (x.id = sid))).length = 0 := by
          simpa using h
        exact List.length_eq_zero.mp this
      rw [List.filter_cons_of_pos (by simp [hs]), hxs]
    · rw [if_neg hx]
      have hxid : ¬ (x.id = sid) := fun hc => hx (hc.trans hs.symm)
      rw [List.filter_cons_of_neg (by simpa using hxid)]
      rw [List.filter_cons_of_neg (by simpa using hxid)] at h
      exact ih h

lemma find?_of_filter_eq_singleton {α : Type} {p : α → Bool} {l : List α} {a : α}
    (h : l.filter p = [a]) : l.find? p = some a := by
  induction l with
  | nil => simp at h
  | cons x xs ih =>
    by_cases hx : p x = true
    · rw [List.filter_cons_of_pos hx] at h
      rw [List.find?_cons_of_pos _ hx]
      exact congrArg some (List.cons_eq_cons.mp h).1
    · rw [List.filter_cons_of_neg (by simpa using hx)] at h
      rw [List.find?_cons_of_neg _ (by simpa using hx)]
      exact ih h

lemma find?_of_filter_eq_nil {α : Type} {p : α → Bool} {l : List α}
    (h : l.filter p = []) : l.find? p = none := by
  rw [List.find?_eq_none]
  intro a ha
  simpa using List.filter_eq_nil_iff.mp h a ha

lemma evalQuietRanges_eq_find? (qs : List (Int × Int)) (h : Int) :
    evalQuietRanges qs h =
      match qs.find? (fun r => matchesQuietRange r h) with
      | some r => ⟨true, some r⟩
      | none => ⟨false, none⟩ := by
  induction qs with
  | nil => rfl
  | cons r rest ih =>
    obtain ⟨s, e⟩ := r
    by_cases h1 : s = e
    · rw [evalQuietRanges, if_pos h1, ih,
        List.find?_cons_of_neg _ (by simp [matchesQuietRange, h1])]
    · by_cases h2 : s < e
      · by_cases h3 : s ≤ h ∧ h < e
        · rw [evalQuietRanges, if_neg h1, if_pos h2, if_pos h3,
            List.find?_cons_of_pos _ (by simp [matchesQuietRange, h1, h2, h3.1, h3.2])]
        · rw [evalQuietRanges, if_neg h1, if_pos h2, if_neg h3, ih,
            List.find?_cons_of_neg _ (by
              simp only [matchesQuietRange, if_neg h1, if_pos h2]
              simpa using fun ha hb => h3 ⟨ha, hb⟩)]
      · by_cases h3 : s ≤ h ∨ h < e
        · rw [evalQuietRanges, if_neg h1, if_neg h2, if_pos h3,
            List.find?_cons_of_pos _ (by
              simp only [matchesQuietRange, if_neg h1, if_neg h2]
              simpa using h3)]
        · rw [evalQuietRanges, if_neg h1, if_neg h2, if_neg h3, ih,
            List.find?_cons_of_neg _ (by
              push_neg at h3
              simp only [matchesQuietRange, if_neg h1, if_neg h2]
              simp only [Bool.or_eq_true, decide_eq_true_eq, not_or]
              omega)]

lemma invariant_upsertStreak {streaks : List Streak} {st : Streak}
    (hinv : StreakInvariant streaks) (hst : 1 ≤ st.length) :
    StreakInvariant (upsertStreak streaks st) :=
  ⟨nodup_upsertStreak st hinv.1,
   fun y hy => (mem_upsertStreak hy).elim (fun h => h ▸ hst) (hinv.2 y)⟩

/-! ### Claim theorems -/

/-- C3: `evaluateQuietHours` scans the ranges in order, skips every range
with `start == end`, matches a forward range by `start ≤ hour < end` and a
midnight-wrapping range by `hour ≥ start ∨ hour < end` (captured by
`matchesQuietRange`), and returns the first matching range with
`withinQuietHours = true`; with no match (including the empty list) it
returns `withinQuietHours = false` and a null range. In particular the
range `[22, 7)` matches local hours 22, 23 and 0–6, and matches neither 7
nor 21. -/
theorem evaluateQuietHours_first_match_spec :
    (∀ (settings : Settings) (localHour : Int),
      evaluateQuietHours settings localHour =
        match settings.quietHours.find? (fun r => matchesQuietRange r localHour) with
        | some r => ⟨true, some r⟩
        | none => ⟨false, none⟩)
    ∧ (([22, 23, 0, 1, 2, 3, 4, 5, 6] : List Int).all
        (fun h => (evaluateQuietHours settings0 h).withinQuietHours)) = true
    ∧ (evaluateQuietHours settings0 7).withinQuietHours = false
    ∧ (evaluateQuietHours settings0 21).withinQuietHours = false := by
  refine ⟨fun settings localHour => ?_, by decide, by decide, by decide⟩
  rw [evaluateQuietHours]
  by_cases hq : settings.quietHours = []
  · rw [if_pos hq, hq]
    rfl
  · rw [if_neg hq]
    exact evalQuietRanges_eq_find? _ _

/-- C5: same-date idempotence — for a qualifying session whose site already
has a streak with `lastDate = session.date` (in a collection holding at
most one streak per site), `ensureStreakProgress` returns the collection
unchanged. -/
theorem ensureStreakProgress_same_date_idempotent
    (session : Session) (streaks : List Streak) (settings : Settings) (st : Streak)
    (hnodup : (streaks.map (fun x => x.siteId)).Nodup)
    (hmem : st ∈ streaks)
    (hsite : st.siteId = session.siteId)
    (hdate : st.lastDate = session.date)
    (hq : max settings.sessionLengthMinutes 1 ≤ session.activeMinutes) :
    ensureStreakProgress session streaks settings = streaks := by
  have hfind : streaks.find? (fun item => decide (item.siteId = session.siteId)) = some st := by
    have h := find?_eq_of_nodup_mem hnodup hmem
    rwa [hsite] at h
  simp only [ensureStreakProgress, hfind]
  rw [if_neg (not_lt.mpr hq), if_pos hdate]

theorem ensureStreakProgress_same_date_idempotent_witness :
    ensureStreakProgress ⟨"example.com:2023-01-01", "example.com", "2023-01-01", 10⟩
        [⟨"example.com", 1, "2023-01-01", none⟩] settings0 =
      [⟨"example.com", 1, "2023-01-01", none⟩] :=
  ensureStreakProgress_same_date_idempotent _ _ _ ⟨"example.com", 1, "2023-01-01", none⟩
    (by decide) (by decide) rfl rfl (by decide)

/-- C6: a session whose `activeMinutes` is below the effective threshold
`max(settings.sessionLengthMinutes, 1)` leaves the streaks collection
unchanged, and that effective threshold is never below one minute (even
for a zero or negative `sessionLengthMinutes`). -/
theorem ensureStreakProgress_below_threshold :
    (∀ (session : Session) (streaks : List Streak) (settings : Settings),
      session.activeMinutes < max settings.sessionLengthMinutes 1 →
      ensureStreakProgress session streaks settings = streaks)
    ∧ ∀ settings : Settings, (1 : ℚ) ≤ max settings.sessionLengthMinutes 1 := by
  refine ⟨fun session streaks settings hlt => ?_, fun settings => le_max_right _ _⟩
  simp only [ensureStreakProgress]
  rw [if_pos hlt]

theorem ensureStreakProgress_below_threshold_witness :
    ensureStreakProgress ⟨"example.com:2023-01-01", "example.com", "2023-01-01", 0⟩ []
      { settings0 with sessionLengthMinutes := 0 } = [] :=
  ensureStreakProgress_below_threshold.1 _ _ _ (by decide)

/-- C2: for a qualifying session whose site has an existing streak dated
differently from `session.date`, `ensureStreakProgress` computes the day
difference by midnight-anchored date comparison (`dateDiffDays`); exactly
when that difference is 1 the streak is continued with `length + 1` and
`lastDate = session.date`, and for every other value (a gap greater than
one day, zero from distinct strings denoting the same day, a negative
difference from a session dated earlier than `lastDate`, or unparseable
dates) the streak is reset to `{siteId, length := 1, lastDate :=
session.date}`; the replaced record is upserted and so belongs to the
returned collection. -/
theorem ensureStreakProgress_gap_spec
    (session : Session) (streaks : List Streak) (settings : Settings) (ex : Streak)
    (hfind : streaks.find? (fun item => decide (item.siteId = session.siteId)) = some ex)
    (hq : max settings.sessionLengthMinutes 1 ≤ session.activeMinutes)
    (hdate : ex.lastDate ≠ session.date) :
    ensureStreakProgress session streaks settings =
      (if dateDiffDays ex.lastDate session.date = some 1
       then upsertStreak streaks { ex with length := ex.length + 1, lastDate := session.date }
       else upsertStreak streaks ⟨session.siteId, 1, session.date, none⟩)
    ∧ (if dateDiffDays ex.lastDate session.date = some 1
       then ({ ex with length := ex.length + 1, lastDate := session.date } : Streak)
              ∈ ensureStreakProgress session streaks settings
       else (⟨session.siteId, 1, session.date, none⟩ : Streak)
              ∈ ensureStreakProgress session streaks settings) := by
  have hmain : ensureStreakProgress session streaks settings =
      (if dateDiffDays ex.lastDate session.date = some 1
       then upsertStreak streaks { ex with length := ex.length + 1, lastDate := session.date }
       else upsertStreak streaks ⟨session.siteId, 1, session.date, none⟩) := by
    simp only [ensureStreakProgress, hfind]
    rw [if_neg (not_lt.mpr hq), if_neg hdate]
  refine ⟨hmain, ?_⟩
  rw [hmain]
  by_cases hd : dateDiffDays ex.lastDate session.date = some 1
  · rw [if_pos hd, if_pos hd]
    exact self_mem_upsertStreak _ _
  · rw [if_neg hd, if_neg hd]
    exact self_mem_upsertStreak _ _

theorem ensureStreakProgress_gap_spec_witness :
    ensureStreakProgress ⟨"example.com:2023-01-02", "example.com", "2023-01-02", 7⟩
        [⟨"example.com", 1, "2023-01-01", none⟩] settings0 =
      [⟨"example.com", 2, "2023-01-02", none⟩] := by
  have h := ensureStreakProgress_gap_spec
    ⟨"example.com:2023-01-02", "example.com", "2023-01-02", 7⟩
    [⟨"example.com", 1, "2023-01-01", none⟩] settings0 ⟨"example.com", 1, "2023-01-01", none⟩
    (by decide) (by decide) (by decide)
  rw [h.1]
  with_unfolding_all rfl

/-- C9 counterexample: the claim fails on the streak-broken reset branch —
the code builds a fresh record `{siteId, length: 1, lastDate}` there, so
an existing `frozenDaysLeft` value is dropped rather than carried through:
a streak for example.com with `frozenDaysLeft = some 3` and `lastDate`
2023-01-01, advanced by a qualifying session dated 2023-01-05, comes back
with `frozenDaysLeft = none ≠ some 3`. -/
theorem frozenDaysLeft_reset_cex :
    ensureStreakProgress ⟨"example.com:2023-01-05", "example.com", "2023-01-05", 10⟩
        [⟨"example.com", 2, "2023-01-01", some 3⟩] settings0 =
      [⟨"example.com", 1, "2023-01-05", none⟩]
    ∧ (⟨"example.com", 1, "2023-01-05", none⟩ : Streak).frozenDaysLeft ≠
        (⟨"example.com", 2, "2023-01-01", some 3⟩ : Streak).frozenDaysLeft :=
  ⟨by with_unfolding_all rfl, by decide⟩

/-- C9 (amended): the merge logic never evaluates `frozenDaysLeft`; on the
`diffDays == 1` continuation branch the record is replaced by a spread of
the existing record, so `frozenDaysLeft` is carried through unchanged,
while on the streak-broken reset branch a fresh record replaces it and
`frozenDaysLeft` becomes absent (`none`). -/
theorem frozenDaysLeft_branch_spec
    (session : Session) (streaks : List Streak) (settings : Settings) (ex : Streak)
    (hfind : streaks.find? (fun item => decide (item.siteId = session.siteId)) = some ex)
    (hq : max settings.sessionLengthMinutes 1 ≤ session.activeMinutes)
    (hdate : ex.lastDate ≠ session.date) :
    (dateDiffDays ex.lastDate session.date = some 1 →
      (ensureStreakProgress session streaks settings).find?
          (fun x => decide (x.siteId = session.siteId)) =
        some { ex with length := ex.length + 1, lastDate := session.date })
    ∧ (dateDiffDays ex.lastDate session.date ≠ some 1 →
      (ensureStreakProgress session streaks settings).find?
          (fun x => decide (x.siteId = session.siteId)) =
        some ⟨session.siteId, 1, session.date, none⟩)
    ∧ ({ ex with length := ex.length + 1, lastDate := session.date } : Streak).frozenDaysLeft =
        ex.frozenDaysLeft := by
  have hex : ex.siteId = session.siteId := by
    have h := List.find?_some hfind
    simpa using h
  have hmain : ensureStreakProgress session streaks settings =
      (if dateDiffDays ex.lastDate session.date = some 1
       then upsertStreak streaks { ex with length := ex.length + 1, lastDate := session.date }
       else upsertStreak streaks ⟨session.siteId, 1, session.date, none⟩) := by
    simp only [ensureStreakProgress, hfind]
    rw [if_neg (not_lt.mpr hq), if_neg hdate]
  refine ⟨fun hd => ?_, fun hd => ?_, rfl⟩
  · rw [hmain, if_pos hd]
    have h := find?_upsertStreak streaks { ex with length := ex.length + 1, lastDate := session.date }
    simpa [hex] using h
  · rw [hmain, if_neg hd]
    exact find?_upsertStreak streaks ⟨session.siteId, 1, session.date, none⟩

theorem frozenDaysLeft_branch_spec_witness :
    (ensureStreakProgress ⟨"example.com:2023-01-02", "example.com", "2023-01-02", 7⟩
        [⟨"example.com", 1, "2023-01-01", some 3⟩] settings0).find?
      (fun x => decide (x.siteId = "example.com")) =
      some ⟨"example.com", 2, "2023-01-02", some 3⟩ :=
  (frozenDaysLeft_branch_spec ⟨"example.com:2023-01-02", "example.com", "2023-01-02", 7⟩
    [⟨"example.com", 1, "2023-01-01", some 3⟩] settings0 ⟨"example.com", 1, "2023-01-01", some 3⟩
    (by decide) (by decide) (by decide)).1 (by with_unfolding_all rfl)

/-- C4: `shouldWarnStreakExpiry` is false when `streak.length = 0` or when
notifications are disabled; otherwise, with `diffHours` the hours elapsed
from the environment-local midnight of `streak.lastDate` to `now`, it is
true iff `21 ≤ diffHours < 48`. Concretely (UTC environment, `lastDate`
2023-01-01): false at 20.9 elapsed hours, true at 21.0 and at 47.9, false
at 48.0, and false with notifications disabled even at 21.0. -/
theorem shouldWarnStreakExpiry_spec :
    (∀ (streak : Streak) (nowMs : Int) (settings : Settings) (env : Int),
      streak.length = 0 → shouldWarnStreakExpiry streak nowMs settings env = false)
    ∧ (∀ (streak : Streak) (nowMs : Int) (settings : Settings) (env : Int),
      settings.notifications = false → shouldWarnStreakExpiry streak nowMs settings env = false)
    ∧ (∀ (streak : Streak) (nowMs : Int) (settings : Settings) (env : Int) (md : Int),
      streak.length ≠ 0 → localMidnightMs streak.lastDate env = some md →
      (shouldWarnStreakExpiry streak nowMs settings env = true ↔
        (21 ≤ ((nowMs - md : Int) : ℚ) / 3600000 ∧ ((nowMs - md : Int) : ℚ) / 3600000 < 48
          ∧ settings.notifications = true)))
    ∧ shouldWarnStreakExpiry ⟨"example.com", 5, "2023-01-01", none⟩ 1672606440000 settings0 0 = false
    ∧ shouldWarnStreakExpiry ⟨"example.com", 5, "2023-01-01", none⟩ 1672606800000 settings0 0 = true
    ∧ shouldWarnStreakExpiry ⟨"example.com", 5, "2023-01-01", none⟩ 1672703640000 settings0 0 = true
    ∧ shouldWarnStreakExpiry ⟨"example.com", 5, "2023-01-01", none⟩ 1672704000000 settings0 0 = false
    ∧ shouldWarnStreakExpiry ⟨"example.com", 5, "2023-01-01", none⟩ 1672606800000
        settingsNoNotif 0 = false := by
  refine ⟨fun streak nowMs settings env h0 => ?_, fun streak nowMs settings env hn => ?_,
    fun streak nowMs settings env md h0 hmd => ?_,
    by with_unfolding_all rfl, by with_unfolding_all rfl, by with_unfolding_all rfl,
    by with_unfolding_all rfl, by with_unfolding_all rfl⟩
  · rw [shouldWarnStreakExpiry, if_pos h0]
  · rw [shouldWarnStreakExpiry]
    by_cases h0 : streak.length = 0
    · rw [if_pos h0]
    · rw [if_neg h0]
      cases hm : localMidnightMs streak.lastDate env with
      | none => rfl
      | some m => simp [hn]
  · rw [shouldWarnStreakExpiry, if_neg h0, hmd]
    simp only [Bool.and_eq_true, decide_eq_true_eq, and_assoc]

/-- Witness for C4: at 21.0 elapsed hours with notifications on, part 3 of
the specification theorem applies and its window condition holds. -/
theorem shouldWarnStreakExpiry_spec_witness :
    shouldWarnStreakExpiry ⟨"example.com", 5, "2023-01-01", none⟩ 1672606800000 settings0 0 =
        true ↔
      (21 ≤ ((1672606800000 - 1672531200000 : Int) : ℚ) / 3600000 ∧
        ((1672606800000 - 1672531200000 : Int) : ℚ) / 3600000 < 48
          ∧ settings0.notifications = true) :=
  shouldWarnStreakExpiry_spec.2.2.1 ⟨"example.com", 5, "2023-01-01", none⟩ 1672606800000
    settings0 0 1672531200000 (by decide) (by decide)

/-- C8: the streak-collection invariant — at most one streak per `siteId`
and every streak with `length ≥ 1` — is preserved by
`ensureStreakProgress`, and therefore by `mergeActivitySlot`; a broken
streak is reset to length 1, never 0, and no operation produces a streak
with `length ≤ 0`. -/
theorem streak_invariant_preserved :
    (∀ (session : Session) (streaks : List Streak) (settings : Settings),
      StreakInvariant streaks →
      StreakInvariant (ensureStreakProgress session streaks settings))
    ∧ (∀ (slot : ActivitySlot) (data : AggregatedData) (settings : Settings)
        (res : AggregatedData),
      StreakInvariant data.streaks →
      mergeActivitySlot slot data settings = some res →
      StreakInvariant res.streaks) := by
  have hmain : ∀ (session : Session) (streaks : List Streak) (settings : Settings),
      StreakInvariant streaks →
      StreakInvariant (ensureStreakProgress session streaks settings) := by
    intro session streaks settings hinv
    simp only [ensureStreakProgress]
    by_cases hlt : session.activeMinutes < max settings.sessionLengthMinutes 1
    · rwa [if_pos hlt]
    · rw [if_neg hlt]
      cases hfind : streaks.find? (fun item => decide (item.siteId = session.siteId)) with
      | none =>
        simp only [hfind]
        exact invariant_upsertStreak hinv le_rfl
      | some ex =>
        simp only [hfind]
        by_cases hdate : ex.lastDate = session.date
        · rwa [if_pos hdate]
        · rw [if_neg hdate]
          have hex : 1 ≤ ex.length := hinv.2 ex (List.mem_of_find?_eq_some hfind)
          by_cases hd : dateDiffDays ex.lastDate session.date = some 1
          · rw [if_pos hd]
            exact invariant_upsertStreak hinv (show (1:Int) ≤ ex.length + 1 by omega)
          · rw [if_neg hd]
            exact invariant_upsertStreak hinv le_rfl
  refine ⟨hmain, fun slot data settings res hinv hmerge => ?_⟩
  rw [mergeActivitySlot] at hmerge
  rcases Option.map_eq_some'.mp hmerge with ⟨dk, _, hres⟩
  subst hres
  exact hmain _ data.streaks settings hinv

theorem streak_invariant_preserved_witness :
    StreakInvariant [(⟨"example.com", 1, "2023-01-01", none⟩ : Streak)] ∧
    StreakInvariant (ensureStreakProgress
      ⟨"example.com:2023-01-02", "example.com", "2023-01-02", 7⟩
      [⟨"example.com", 1, "2023-01-01", none⟩] settings0) :=
  ⟨by decide, streak_invariant_preserved.1 _ _ _ (by decide)⟩

lemma digitsPad_two {n : Nat} (hn : n ≤ 99) :
    digitsPad 2 n = [Nat.digitChar (n / 10), Nat.digitChar (n % 10)] := by
  have h1 : n / 10 % 10 = n / 10 := Nat.mod_eq_of_lt (by omega)
  simp [digitsPad, List.range_succ, pow_one, pow_zero, Nat.div_one, h1]

lemma matchTzAt_exact {sg : Char} (hsg : sg = '+' ∨ sg = '-') {H M : Nat}
    (hH : H ≤ 99) (hM : M ≤ 99) (rest : List Char) :
    matchTzAt (sg :: (digitsPad 2 H ++ ':' :: digitsPad 2 M ++ rest)) =
      some (if sg = '-' then -((H * 60 + M : Nat) : Int) else ((H * 60 + M : Nat) : Int)) := by
  have hd1 : H / 10 < 10 := by omega
  have hd2 : H % 10 < 10 := Nat.mod_lt _ (by omega)
  have hd3 : M / 10 < 10 := by omega
  have hd4 : M % 10 < 10 := Nat.mod_lt _ (by omega)
  rw [digitsPad_two hH, digitsPad_two hM]
  simp only [List.cons_append, List.nil_append, matchTzAt]
  rw [if_pos (by exact ⟨hsg, isDigit_digitChar hd1, isDigit_digitChar hd2, trivial,
    isDigit_digitChar hd3, isDigit_digitChar hd4⟩)]
  rw [digitVal_digitChar hd1, digitVal_digitChar hd2, digitVal_digitChar hd3,
    digitVal_digitChar hd4]
  have harith : (H / 10 * 10 + H % 10) * 60 + (M / 10 * 10 + M % 10) = H * 60 + M := by omega
  rw [harith]

lemma toDateKey_map_eq_spec {ms : Int}
    (hclip : ms.natAbs ≤ 8640000000000000)
    (hy0 : 0 ≤ (civilFromDays (Int.fdiv ms 86400000)).1)
    (hy1 : (civilFromDays (Int.fdiv ms 86400000)).1 ≤ 9999) :
    (toISOStringOpt ms).map (fun s => String.mk (s.data.take 10)) =
      some (specDateKeyOfMs ms) := by
  rw [toISOStringOpt, if_pos hclip, Option.map_some', Option.some_inj]
  have hiso : isoDateChars ms = (specDateKeyOfMs ms).data := by
    simp only [isoDateChars, specDateKeyOfMs]
    rw [if_pos ⟨hy0, hy1⟩,
      if_pos (show (civilFromDays (Int.fdiv ms 86400000)).1 < 10000 by omega)]
  have hlen : (isoDateChars ms).length = 10 := by
    rw [isoDateChars, if_pos ⟨hy0, hy1⟩]
    simp [digitsPad_length]
  show String.mk ((isoDateChars ms ++ isoTimeChars ms).take 10) = specDateKeyOfMs ms
  rw [← hlen, List.take_left, hiso]

/-- C7 counterexample: the claim fails for timestamps whose shifted instant
falls outside years 0000–9999 — `toISOString` then uses the expanded
six-digit signed year format, so `slice(0, 10)` is no longer the
`YYYY-MM-DD` rendering of the shifted instant's UTC calendar date: at the
first instant of year 10000 (UTC, offset `+00:00`) `toDateKey` returns
`"+010000-01"`, not `"10000-01-01"`. -/
theorem toDateKey_year_range_cex :
    toDateKey 253402300800000 "+00:00" = some "+010000-01"
    ∧ specDateKeyOfMs (253402300800000 + parseTzOffsetMinutes "+00:00" * 60000) = "10000-01-01"
    ∧ toDateKey 253402300800000 "+00:00" ≠
        some (specDateKeyOfMs (253402300800000 + parseTzOffsetMinutes "+00:00" * 60000)) :=
  ⟨by decide, by decide, by decide⟩

/-- C7 (amended): `parseTzOffsetMinutes` never raises; on a string that is
exactly a sign, two digits, a colon and two digits it returns the signed
minute count `sign * (HH * 60 + MM)`, and on a string containing no such
six-character pattern anywhere it returns 0 (so a malformed tz behaves as
UTC offset 0). For every timestamp and tz, provided the shifted instant
`timestamp + parseOffsetMinutes(tz) * 60000` is a representable `Date`
time value (|ms| ≤ 8.64e15) whose UTC year lies in 0000–9999, `toDateKey`
equals the `YYYY-MM-DD` rendering of the UTC calendar date of the shifted
instant; outside that year range the expanded-year `toISOString` format
breaks the claim (see the counterexample), and beyond the representable
range `toISOString` throws. -/
theorem toDateKey_parse_spec_amended :
    (∀ (sg : Char) (H M : Nat), (sg = '+' ∨ sg = '-') → H ≤ 99 → M ≤ 99 →
      parseTzOffsetMinutes (String.mk (sg :: (digitsPad 2 H ++ ':' :: digitsPad 2 M))) =
        if sg = '-' then -((H * 60 + M : Nat) : Int) else ((H * 60 + M : Nat) : Int))
    ∧ (∀ tz : String, (∀ j : Nat, matchTzAt (tz.data.drop j) = none) →
        parseTzOffsetMinutes tz = 0)
    ∧ (∀ (ts : Int) (tz : String),
        (ts + parseTzOffsetMinutes tz * 60000).natAbs ≤ 8640000000000000 →
        0 ≤ (civilFromDays (Int.fdiv (ts + parseTzOffsetMinutes tz * 60000) 86400000)).1 →
        (civilFromDays (Int.fdiv (ts + parseTzOffsetMinutes tz * 60000) 86400000)).1 ≤ 9999 →
        toDateKey ts tz = some (specDateKeyOfMs (ts + parseTzOffsetMinutes tz * 60000))) := by
  refine ⟨fun sg H M hsg hH hM => ?_, fun tz hn => ?_, fun ts tz hclip hy0 hy1 => ?_⟩
  · rw [parseTzOffsetMinutes]
    have hm := matchTzAt_exact hsg hH hM []
    rw [List.append_nil] at hm
    rw [@findTzOffset_of_first _ 0 _
      (by rw [List.drop_zero]; exact hm) (fun j hj => absurd hj (Nat.not_lt_zero j))]
    rfl
  · rw [parseTzOffsetMinutes, findTzOffset_of_no_match hn]
    rfl
  · rw [toDateKey]
    exact toDateKey_map_eq_spec hclip hy0 hy1

/-- Witness for C7 (amended): tz `+05:30` parses to 330 minutes, and
`toDateKey` at 2023-01-01T12:00:00Z with that offset renders the shifted
instant's UTC calendar date. -/
theorem toDateKey_parse_spec_amended_witness :
    parseTzOffsetMinutes (String.mk ('+' :: (digitsPad 2 5 ++ ':' :: digitsPad 2 30))) =
      ((5 * 60 + 30 : Nat) : Int)
    ∧ toDateKey 1672574400000 "+05:30" =
        some (specDateKeyOfMs (1672574400000 + parseTzOffsetMinutes "+05:30" * 60000)) :=
  ⟨by
    have h := toDateKey_parse_spec_amended.1 '+' 5 30 (Or.inl rfl) (by decide) (by decide)
    rwa [if_neg (by decide)] at h,
   toDateKey_parse_spec_amended.2.2 1672574400000 "+05:30"
     (by decide) (by decide) (by decide)⟩

/-- C10: the tz regex is unanchored and does not range-check its fields —
`parseTzOffsetMinutes` returns the signed minute count computed from the
first substring of the form sign, two digits, colon, two digits (scanning
start positions left to right), and only strings containing no such
substring fall back to 0; for example `"UTC+05:30extra"` yields 330 and
`"+99:00"` yields 5940 rather than 0. -/
theorem parseTz_unanchored_spec :
    (∀ (tz : String) (i : Nat) (v : Int),
      matchTzAt (tz.data.drop i) = some v →
      (∀ j, j < i → matchTzAt (tz.data.drop j) = none) →
      parseTzOffsetMinutes tz = v)
    ∧ (∀ tz : String, (∀ j : Nat, matchTzAt (tz.data.drop j) = none) →
        parseTzOffsetMinutes tz = 0)
    ∧ parseTzOffsetMinutes "UTC+05:30extra" = 330
    ∧ parseTzOffsetMinutes "+99:00" = 5940 := by
  refine ⟨fun tz i v hm hn => ?_, fun tz hn => ?_, by decide, by decide⟩
  · rw [parseTzOffsetMinutes, findTzOffset_of_first hm hn]
    rfl
  · rw [parseTzOffsetMinutes, findTzOffset_of_no_match hn]
    rfl

theorem parseTz_unanchored_spec_witness :
    parseTzOffsetMinutes "+05:30" = 330 :=
  parseTz_unanchored_spec.1 "+05:30" 0 330 (by decide)
    (fun j hj => absurd hj (Nat.not_lt_zero j))

lemma find?_eq_of_getElem? {α : Type} {p : α → Bool} {l : List α} {i : Nat} {a : α}
    (hi : l[i]? = some a) (hp : p a = true)
    (hbefore : ∀ j, j < i → ∀ y, l[j]? = some y → p y = false) :
    l.find? p = some a := by
  induction l generalizing i with
  | nil => simp at hi
  | cons x xs ih =>
    cases i with
    | zero =>
      rw [List.getElem?_cons_zero, Option.some_inj] at hi
      subst hi
      rw [List.find?_cons_of_pos _ hp]
    | succ i' =>
      rw [List.getElem?_cons_succ] at hi
      have hx : p x = false := hbefore 0 (Nat.succ_pos _) x List.getElem?_cons_zero
      rw [List.find?_cons_of_neg _ (by simp [hx])]
      exact ih hi
        (fun j hj y hy => hbefore (j + 1) (by omega) y (by rwa [List.getElem?_cons_succ]))

lemma merge_step {slot : ActivitySlot} {data : AggregatedData} {settings : Settings}
    {dk : String} (hdk : toDateKey slot.timestamp settings.tz = some dk) :
    ∃ n : Session, n.id = slot.siteId ++ ":" ++ dk ∧
      mergeActivitySlot slot data settings =
        some ⟨upsertSession data.sessions n, ensureStreakProgress n data.streaks settings⟩ ∧
      (data.sessions.find? (fun s => decide (s.id = slot.siteId ++ ":" ++ dk)) = none →
        n = ⟨slot.siteId ++ ":" ++ dk, slot.siteId, dk, roundMinutes (slot.durationSec / 60)⟩) ∧
      (∀ ex, data.sessions.find? (fun s => decide (s.id = slot.siteId ++ ":" ++ dk)) = some ex →
        n = { ex with activeMinutes := roundMinutes (ex.activeMinutes + slot.durationSec / 60) }) := by
  cases hfind : data.sessions.find? (fun s => decide (s.id = slot.siteId ++ ":" ++ dk)) with
  | none =>
    refine ⟨⟨slot.siteId ++ ":" ++ dk, slot.siteId, dk, roundMinutes (slot.durationSec / 60)⟩,
      rfl, ?_, fun _ => rfl, fun ex hex => Option.noConfusion hex⟩
    rw [mergeActivitySlot, hdk, Option.map_some']
    simp only [hfind]
  | some ex =>
    refine ⟨{ ex with activeMinutes := roundMinutes (ex.activeMinutes + slot.durationSec / 60) },
      ?_, ?_, fun hnone => Option.noConfusion hnone, fun ex' hex' => ?_⟩
    · have h := List.find?_some hfind
      simpa using h
    · rw [mergeActivitySlot, hdk, Option.map_some']
      simp only [hfind]
    · have hee : ex = ex' := Option.some_inj.mp hex'
      rw [hee]

/-- C1: `mergeActivitySlot` computes `dateKey = toDateKey(slot.timestamp,
settings.tz)` and `sessionId = slot.siteId ++ ":" ++ dateKey`; an existing
session with that id is replaced at its original position with
`activeMinutes = round2(existing.activeMinutes + durationSec/60)`, and
otherwise the new session `{id, siteId, date, round2(durationSec/60)}` is
appended, while the streaks are advanced on the updated session. Merging
two slots for the same site resolving to the same local date never yields
two sessions for that (site, date), and starting from no session for that
key the accumulated `activeMinutes` equals the per-merge 2-decimal-rounded
sum of the slots' `durationSec/60` (hence lies within 1e-5 of it). -/
theorem mergeActivitySlot_session_spec :
    (∀ (slot : ActivitySlot) (data : AggregatedData) (settings : Settings)
       (dk : String) (i : Nat) (ex : Session),
      toDateKey slot.timestamp settings.tz = some dk →
      data.sessions[i]? = some ex → ex.id = slot.siteId ++ ":" ++ dk →
      (∀ j, j < i → ∀ y, data.sessions[j]? = some y → y.id ≠ slot.siteId ++ ":" ++ dk) →
      mergeActivitySlot slot data settings =
        some ⟨data.sessions.set i
                { ex with activeMinutes := roundMinutes (ex.activeMinutes + slot.durationSec / 60) },
              ensureStreakProgress
                { ex with activeMinutes := roundMinutes (ex.activeMinutes + slot.durationSec / 60) }
                data.streaks settings⟩)
    ∧ (∀ (slot : ActivitySlot) (data : AggregatedData) (settings : Settings) (dk : String),
      toDateKey slot.timestamp settings.tz = some dk →
      data.sessions.find? (fun s => decide (s.id = slot.siteId ++ ":" ++ dk)) = none →
      mergeActivitySlot slot data settings =
        some ⟨data.sessions ++
                [⟨slot.siteId ++ ":" ++ dk, slot.siteId, dk, roundMinutes (slot.durationSec / 60)⟩],
              ensureStreakProgress
                ⟨slot.siteId ++ ":" ++ dk, slot.siteId, dk, roundMinutes (slot.durationSec / 60)⟩
                data.streaks settings⟩)
    ∧ (∀ (slot1 slot2 : ActivitySlot) (data d1 d2 : AggregatedData) (settings : Settings)
       (dk : String),
      slot2.siteId = slot1.siteId →
      toDateKey slot1.timestamp settings.tz = some dk →
      toDateKey slot2.timestamp settings.tz = some dk →
      (data.sessions.filter (fun s => decide (s.id = slot1.siteId ++ ":" ++ dk))).length ≤ 1 →
      mergeActivitySlot slot1 data settings = some d1 →
      mergeActivitySlot slot2 d1 settings = some d2 →
      (d2.sessions.filter (fun s => decide (s.id = slot1.siteId ++ ":" ++ dk))).length = 1)
    ∧ (∀ (slot1 slot2 : ActivitySlot) (data d1 d2 : AggregatedData) (settings : Settings)
       (dk : String),
      slot2.siteId = slot1.siteId →
      toDateKey slot1.timestamp settings.tz = some dk →
      toDateKey slot2.timestamp settings.tz = some dk →
      data.sessions.filter (fun s => decide (s.id = slot1.siteId ++ ":" ++ dk)) = [] →
      mergeActivitySlot slot1 data settings = some d1 →
      mergeActivitySlot slot2 d1 settings = some d2 →
      d2.sessions.filter (fun s => decide (s.id = slot1.siteId ++ ":" ++ dk)) =
        [⟨slot1.siteId ++ ":" ++ dk, slot1.siteId, dk,
          roundMinutes (roundMinutes (slot1.durationSec / 60) + slot2.durationSec / 60)⟩]
      ∧ ∀ s ∈ d2.sessions.filter (fun s => decide (s.id = slot1.siteId ++ ":" ++ dk)),
          |s.activeMinutes -
            roundMinutes (roundMinutes (slot1.durationSec / 60) + slot2.durationSec / 60)| ≤
            1 / 100000) := by
  refine ⟨fun slot data settings dk i ex hdk hi hex hbefore => ?_,
    fun slot data settings dk hdk hnone => ?_,
    fun slot1 slot2 data d1 d2 settings dk hsite h1 h2 hle hm1 hm2 => ?_,
    fun slot1 slot2 data d1 d2 settings dk hsite h1 h2 hfe hm1 hm2 => ?_⟩
  · -- found: replacement at the original position
    have hfind : data.sessions.find? (fun s => decide (s.id = slot.siteId ++ ":" ++ dk)) =
        some ex :=
      find?_eq_of_getElem? hi (by simpa using hex)
        (fun j hj y hy => by simpa using hbefore j hj y hy)
    obtain ⟨n, _, hmerge, _, hfound⟩ := merge_step hdk
    rw [hfound ex hfind] at hmerge
    rw [hmerge, upsertSession_eq_set data.sessions
      { ex with activeMinutes := roundMinutes (ex.activeMinutes + slot.durationSec / 60) }
      hi rfl
      (fun j hj y hy => by
        show y.id ≠ ex.id
        rw [hex]
        exact hbefore j hj y hy)]
  · -- fresh: append
    obtain ⟨n, _, hmerge, hfresh, _⟩ := merge_step hdk
    rw [hfresh hnone] at hmerge
    have hnone' : data.sessions.find?
        (fun x => decide (x.id = (⟨slot.siteId ++ ":" ++ dk, slot.siteId, dk,
          roundMinutes (slot.durationSec / 60)⟩ : Session).id)) = none := hnone
    rw [hmerge, upsertSession_of_find?_none hnone']
  · -- two merges, same (site, date): a single session remains
    obtain ⟨n1, hn1, hmerge1, _, _⟩ := @merge_step _ data _ _ h1
    rw [hmerge1, Option.some_inj] at hm1
    have hd1s : d1.sessions = upsertSession data.sessions n1 := by rw [← hm1]
    have hf1 : d1.sessions.filter (fun s => decide (s.id = slot1.siteId ++ ":" ++ dk)) = [n1] := by
      rw [hd1s]
      exact filter_upsertSession hn1 hle
    obtain ⟨n2, hn2, hmerge2, _, _⟩ := @merge_step _ d1 _ _ h2
    rw [hmerge2, Option.some_inj] at hm2
    have hd2s : d2.sessions = upsertSession d1.sessions n2 := by rw [← hm2]
    have hn2' : n2.id = slot1.siteId ++ ":" ++ dk := by rw [hn2, hsite]
    have hf2 : d2.sessions.filter (fun s => decide (s.id = slot1.siteId ++ ":" ++ dk)) = [n2] := by
      rw [hd2s]
      exact filter_upsertSession hn2' (by simp [hf1])
    rw [hf2]
    rfl
  · -- two merges from a fresh key: exact accumulated value
    obtain ⟨n1, hn1, hmerge1, hfresh1, _⟩ := @merge_step _ data _ _ h1
    have hnone1 : data.sessions.find? (fun s => decide (s.id = slot1.siteId ++ ":" ++ dk)) =
        none := find?_of_filter_eq_nil hfe
    have hn1v := hfresh1 hnone1
    rw [hmerge1, Option.some_inj] at hm1
    have hd1s : d1.sessions = upsertSession data.sessions n1 := by rw [← hm1]
    have hf1 : d1.sessions.filter (fun s => decide (s.id = slot1.siteId ++ ":" ++ dk)) = [n1] := by
      rw [hd1s]
      exact filter_upsertSession hn1 (by simp [hfe])
    obtain ⟨n2, hn2, hmerge2, _, hfound2⟩ := @merge_step _ d1 _ _ h2
    have hfind2 : d1.sessions.find? (fun s => decide (s.id = slot2.siteId ++ ":" ++ dk)) =
        some n1 := by
      rw [hsite]
      exact find?_of_filter_eq_singleton hf1
    have hn2v := hfound2 n1 hfind2
    rw [hmerge2, Option.some_inj] at hm2
    have hd2s : d2.sessions = upsertSession d1.sessions n2 := by rw [← hm2]
    have hn2' : n2.id = slot1.siteId ++ ":" ++ dk := by rw [hn2, hsite]
    have hf2 : d2.sessions.filter (fun s => decide (s.id = slot1.siteId ++ ":" ++ dk)) = [n2] := by
      rw [hd2s]
      exact filter_upsertSession hn2' (by simp [hf1])
    have hn2final : n2 = ⟨slot1.siteId ++ ":" ++ dk, slot1.siteId, dk,
        roundMinutes (roundMinutes (slot1.durationSec / 60) + slot2.durationSec / 60)⟩ := by
      rw [hn2v, hn1v]
    refine ⟨by rw [hf2, hn2final], fun s hs => ?_⟩
    rw [hf2, hn2final] at hs
    rw [List.mem_singleton.mp hs]
    simp only [sub_self, abs_zero]
    norm_num

/-- Witness for C1: merging the repository test's two example.com slots
(600 s then 300 s, both on 2023-01-01 UTC) into empty data yields exactly
one session for that key, with the per-merge rounded accumulated value. -/
theorem mergeActivitySlot_session_spec_witness :
    (AggregatedData.sessions
        ⟨[⟨"example.com:2023-01-01", "example.com", "2023-01-01", 15⟩],
         [⟨"example.com", 1, "2023-01-01", none⟩]⟩).filter
      (fun s => decide (s.id =
        (⟨"example.com", "https://example.com", 600, 1672574400000⟩ : ActivitySlot).siteId ++
          ":" ++ "2023-01-01")) =
      [⟨(⟨"example.com", "https://example.com", 600, 1672574400000⟩ : ActivitySlot).siteId ++
          ":" ++ "2023-01-01",
        (⟨"example.com", "https://example.com", 600, 1672574400000⟩ : ActivitySlot).siteId,
        "2023-01-01",
        roundMinutes (roundMinutes
            ((⟨"example.com", "https://example.com", 600, 1672574400000⟩ : ActivitySlot).durationSec / 60) +
          (⟨"example.com", "https://example.com", 300, 1672575000000⟩ : ActivitySlot).durationSec / 60)⟩] :=
  (mergeActivitySlot_session_spec.2.2.2
    ⟨"example.com", "https://example.com", 600, 1672574400000⟩
    ⟨"example.com", "https://example.com", 300, 1672575000000⟩
    ⟨[], []⟩
    ⟨[⟨"example.com:2023-01-01", "example.com", "2023-01-01", 10⟩],
     [⟨"example.com", 1, "2023-01-01", none⟩]⟩
    ⟨[⟨"example.com:2023-01-01", "example.com", "2023-01-01", 15⟩],
     [⟨"example.com", 1, "2023-01-01", none⟩]⟩
    settings0 "2023-01-01" rfl (by decide) (by decide) rfl
    (by with_unfolding_all rfl) (by with_unfolding_all rfl)).1

/-! Sanity checks replaying the repository's own test scenarios. -/

example :
    mergeActivitySlot ⟨"example.com", "https://example.com", 600, 1672574400000⟩ ⟨[], []⟩
        settings0 =
      some ⟨[⟨"example.com:2023-01-01", "example.com", "2023-01-01", 10⟩],
            [⟨"example.com", 1, "2023-01-01", none⟩]⟩ := by
  with_unfolding_all rfl

example :
    mergeActivitySlot ⟨"example.com", "https://example.com", 300, 1672575000000⟩
        ⟨[⟨"example.com:2023-01-01", "example.com", "2023-01-01", 6⟩],
         [⟨"example.com", 1, "2023-01-01", none⟩]⟩ settings0 =
      some ⟨[⟨"example.com:2023-01-01", "example.com", "2023-01-01", 11⟩],
            [⟨"example.com", 1, "2023-01-01", none⟩]⟩ := by
  with_unfolding_all rfl

example :
    shouldWarnStreakExpiry ⟨"example.com", 5, "2023-01-01", none⟩ 1672619400000 settings0 0 =
      true := by
  with_unfolding_all rfl

example : evaluateQuietHours settings0 23 = ⟨true, some (22, 7)⟩ := by decide

end Bychok
